import Mathlib

/-!
Shallow embedding of the Forseti collaborative file-versioning service
(`forseti-service`, Rust) — the version store, the line-based three-way
diff/merge engine, the save pipeline, the in-memory file-lock registry and
the active-editor roster — together with theorems settling the spec claims.

Conventions used throughout:
* Rust `HashMap<String, V>` is modelled as a duplicate-free association list
  `List (String × V)`; `mapInsert` replaces in place (the iteration order of a
  Rust `HashMap` is unspecified, the model fixes first-insertion order).
* `chrono::DateTime<Utc>` and `std::time::Instant` are modelled as `Nat`.
* `Uuid::new_v4()` results are passed in as explicit `fresh_id` arguments.
* Filesystem blobs for one file are modelled as an association list
  `version_id → content`; the per-request clock is an explicit `now : Nat`.
-/

namespace Forseti

/-! ### Strings and lines (Rust `str::lines` semantics) -/

/-- Split a character list at every newline character (keeping a trailing
empty segment when the list ends with a newline). -/
def splitNl : List Char → List (List Char)
  | [] => [[]]
  | c :: cs =>
    if c = '\n' then [] :: splitNl cs
    else
      match splitNl cs with
      | h :: t => (c :: h) :: t
      | [] => [[c]]

/-- Drop one trailing carriage return, as Rust `str::lines` does for `\r\n`. -/
def stripCr (cs : List Char) : List Char :=
  if cs.getLast? = some '\r' then cs.dropLast else cs

/-- Rust `str::lines()`: lines delimited by `\n` (with `\r\n` tolerated); a
trailing newline does not produce a final empty line; `"" → []`. -/
def rustLines (s : String) : List String :=
  match s.data with
  | [] => []
  | c :: cs =>
    let parts := splitNl (c :: cs)
    let parts := if parts.getLast? = some [] then parts.dropLast else parts
    parts.map (fun l => String.mk (stripCr l))

/-- Rust `Vec::join("\n")`: no trailing separator. -/
def joinLines : List String → String
  | [] => ""
  | [l] => l
  | l :: ls => l ++ "\n" ++ joinLines ls

/-! ### Data model (`src/models/file_version.rs`) -/

/-- `FileVersion`: immutable version record. -/
structure FileVersion where
  version_id : String
  timestamp : Nat
  user_id : String
  username : Option String
  message : Option String
  content_hash : String
deriving DecidableEq, Repr

/-- `FileBranch`: a named divergent line of versions. -/
structure FileBranch where
  branch_id : String
  name : String
  created_by : String
  created_at : Nat
  base_version : String
  head_version : String
deriving DecidableEq, Repr

/-- `ActiveEditor`: transient per-file editing claim. -/
structure ActiveEditor where
  user_id : String
  username : Option String
  editing_since : Nat
  branch : Option String
deriving DecidableEq, Repr

/-- `VersionedFileMetadata`: the per-file metadata document. -/
structure VersionedFileMetadata where
  file_id : String
  file_name : String
  current_version : String
  versions : List (String × FileVersion)
  branches : List (String × FileBranch)
  active_editors : List ActiveEditor
  last_modified : Nat
  team_id : Option String
  owner_id : String
deriving DecidableEq, Repr

/-- The `SaveStatus` wire enum (`saved` / `conflict` / `auto_merged`). -/
inductive SaveStatus where
  | Saved
  | Conflict
  | AutoMerged
deriving DecidableEq, Repr

/-- `TextChange`: one line change of a two-sided diff. -/
structure TextChange where
  start_line : Nat
  end_line : Nat
  content : String
deriving DecidableEq, Repr

/-- `Conflict`: an overlapping pair of edits, as put on the wire. -/
structure Conflict where
  start_line : Nat
  end_line : Nat
  base_content : String
  current_content : String
  your_content : String
deriving DecidableEq, Repr

/-- `DiffResponse`: result of `compare_versions`. -/
structure DiffResponse where
  base_version : String
  compare_version : String
  changes : List TextChange
  conflicts : List Conflict
  can_auto_merge : Bool
deriving DecidableEq, Repr

/-- `SaveVersionedFileResponse`. -/
structure SaveVersionedFileResponse where
  status : SaveStatus
  new_version : Option String
  conflicts : Option (List Conflict)
  message : String
deriving DecidableEq, Repr

/-- `ServiceError` (the variants the embedded operations can produce). -/
inductive ServiceError where
  | NotFound
  | InternalServerError
  | BadRequest (msg : String)
  | Forbidden
deriving DecidableEq, Repr

/-! ### Association-list maps standing in for `HashMap<String, V>` -/

/-- Key lookup. -/
def mapLookup {α : Type} : List (String × α) → String → Option α
  | [], _ => none
  | (k, v) :: rest, key => if k = key then some v else mapLookup rest key

/-- `HashMap::insert`: replace in place when present, append otherwise. -/
def mapInsert {α : Type} : List (String × α) → String → α → List (String × α)
  | [], key, v => [(key, v)]
  | (k, w) :: rest, key, v =>
    if k = key then (key, v) :: rest else (k, w) :: mapInsert rest key v

/-- `HashMap::remove` (only key removal is modelled). -/
def mapErase {α : Type} (m : List (String × α)) (key : String) : List (String × α) :=
  m.filter (fun p => p.1 ≠ key)

/-- `HashMap::contains_key`. -/
def mapContains {α : Type} (m : List (String × α)) (key : String) : Bool :=
  (mapLookup m key).isSome

/-! ### Diff/merge engine (`src/utils/version_control.rs`, `diff_utils`)

`diff_text` iterates the line changes of `similar::TextDiff::from_lines`, an
external library. Modelled here: an LCS-based minimal line edit script whose
replacements emit deletions before insertions, which is the script `similar`
(Myers) produces on every input used below (each such input has a unique
minimal script). The `content` carried by a change is the line itself; no
embedded operation or claim inspects it. -/

/-- `ChangeTag` of one diff op. -/
inductive DTag where
  | del
  | ins
  | eq
deriving DecidableEq, Repr

/-- Length of a longest common subsequence, fuel-recursive so that it is
kernel-computable (adequate whenever `fuel ≥ xs.length + ys.length`). -/
def lcsLenF : Nat → List String → List String → Nat
  | 0, _, _ => 0
  | _ + 1, [], _ => 0
  | _ + 1, _ :: _, [] => 0
  | f + 1, x :: xs, y :: ys =>
    if x = y then lcsLenF f xs ys + 1
    else max (lcsLenF f xs (y :: ys)) (lcsLenF f (x :: xs) ys)

/-- Minimal edit script between two line lists (delete-before-insert on
replacements), fuel-recursive as above. -/
def diffOpsF : Nat → List String → List String → List (DTag × String)
  | 0, _, _ => []
  | _ + 1, [], ys => ys.map (fun y => (DTag.ins, y))
  | _ + 1, x :: xs, [] => (DTag.del, x) :: (xs.map (fun x2 => (DTag.del, x2)))
  | f + 1, x :: xs, y :: ys =>
    if x = y then (DTag.eq, x) :: diffOpsF f xs ys
    else if lcsLenF f xs (y :: ys) ≥ lcsLenF f (x :: xs) ys then
      (DTag.del, x) :: diffOpsF f xs (y :: ys)
    else
      (DTag.ins, y) :: diffOpsF f (x :: xs) ys

/-- The numbering loop of `diff_text`: deletions span one base line
(`[ln, ln+1)`, advancing `ln`); insertions carry `end_line == start_line`;
equal lines advance `ln` silently. -/
def diffChanges : List (DTag × String) → Nat → List TextChange
  | [], _ => []
  | (DTag.del, s) :: rest, ln =>
    { start_line := ln, end_line := ln + 1, content := s } :: diffChanges rest (ln + 1)
  | (DTag.ins, s) :: rest, ln =>
    { start_line := ln, end_line := ln, content := s } :: diffChanges rest ln
  | (DTag.eq, _) :: rest, ln => diffChanges rest (ln + 1)

/-- `diff_text`: line changes from `old_text` to `new_text`. -/
def diff_text (old_text new_text : String) : List TextChange :=
  let o := rustLines old_text
  let n := rustLines new_text
  diffChanges (diffOpsF (o.length + n.length) o n) 0

/-- `changes_overlap`: closed-interval intersection of `[start_line, end_line]`. -/
def changes_overlap (change1 change2 : TextChange) : Bool :=
  (change1.start_line ≥ change2.start_line && change1.start_line ≤ change2.end_line) ||
  (change1.end_line ≥ change2.start_line && change1.end_line ≤ change2.end_line) ||
  (change2.start_line ≥ change1.start_line && change2.start_line ≤ change1.end_line) ||
  (change2.end_line ≥ change1.start_line && change2.end_line ≤ change1.end_line)

/-- `extract_lines`: `lines[start.min(len)..end.min(len)].join("\n")`. -/
def extract_lines (lines : List String) (start_line end_line : Nat) : String :=
  let s := min start_line lines.length
  let e := min end_line lines.length
  joinLines ((lines.drop s).take (e - s))

/-- `detect_conflicts`: for every pair of overlapping changes, emit one
`Conflict` taking its range and the base/your sections from the your-side
change, and the current section from the their-side change. -/
def detect_conflicts (your_changes their_changes : List TextChange)
    (base_content your_content their_content : String) : List Conflict :=
  let base_lines := rustLines base_content
  let your_lines := rustLines your_content
  let their_lines := rustLines their_content
  your_changes.flatMap (fun your_change =>
    their_changes.filterMap (fun their_change =>
      if changes_overlap your_change their_change then
        some { start_line := your_change.start_line,
               end_line := your_change.end_line,
               base_content := extract_lines base_lines your_change.start_line your_change.end_line,
               current_content := extract_lines their_lines their_change.start_line their_change.end_line,
               your_content := extract_lines your_lines your_change.start_line your_change.end_line }
      else none))

/-- `compare_versions`: both one-sided diffs, their conflicts, and the
auto-merge verdict. -/
def compare_versions (base_content your_content their_content : String) : DiffResponse :=
  let your_changes := diff_text base_content your_content
  let their_changes := diff_text base_content their_content
  let conflicts := detect_conflicts your_changes their_changes
    base_content your_content their_content
  { base_version := "base", compare_version := "compare",
    changes := your_changes ++ their_changes,
    conflicts := conflicts,
    can_auto_merge := conflicts.isEmpty }

/-- One iteration of the `attempt_auto_merge` loop: the lines contributed at
index `i` (`none` aborts the merge). -/
def mergeLine (base_lines your_lines their_lines : List String) (i : Nat) :
    Option (List String) :=
  if i < your_lines.length && i < their_lines.length && i < base_lines.length then
    if your_lines.getD i "" ≠ base_lines.getD i "" &&
       their_lines.getD i "" ≠ base_lines.getD i "" then
      if your_lines.getD i "" = their_lines.getD i "" then
        some [your_lines.getD i ""]
      else
        none
    else if your_lines.getD i "" ≠ base_lines.getD i "" then
      some [your_lines.getD i ""]
    else if their_lines.getD i "" ≠ base_lines.getD i "" then
      some [their_lines.getD i ""]
    else
      some [base_lines.getD i ""]
  else if i < your_lines.length && i < base_lines.length then
    some [your_lines.getD i ""]
  else if i < their_lines.length && i < base_lines.length then
    some [their_lines.getD i ""]
  else if i < your_lines.length then
    some [your_lines.getD i ""]
  else if i < their_lines.length then
    some [their_lines.getD i ""]
  else
    some []

/-- `attempt_auto_merge`: `none` when conflicts exist or a line has divergent
concurrent edits; otherwise the positional three-way merge joined by `\n`. -/
def attempt_auto_merge (base_content your_content their_content : String) :
    Option String :=
  let diff_result := compare_versions base_content your_content their_content
  if !diff_result.can_auto_merge then none
  else
    let base_lines := rustLines base_content
    let your_lines := rustLines your_content
    let their_lines := rustLines their_content
    let max_lines := max (max your_lines.length their_lines.length) base_lines.length
    ((List.range max_lines).foldlM
      (fun acc i => (mergeLine base_lines your_lines their_lines i).map (acc ++ ·))
      ([] : List String)).map joinLines

/-- Replace `[start_line, min(end_line, len))` of the line list by the five
conflict-marker lines, appending instead when `start_line` is past the end. -/
def spliceMarkers (result_lines : List String) (conflict : Conflict) : List String :=
  let conflict_section : List String :=
    ["<<<<<<< CURRENT CHANGES", conflict.current_content, "=======",
     conflict.your_content, ">>>>>>> YOUR CHANGES"]
  if conflict.start_line < result_lines.length then
    (result_lines.take conflict.start_line) ++ conflict_section ++
      (result_lines.drop (min conflict.end_line result_lines.length))
  else
    result_lines ++ conflict_section

/-- `create_marked_merge`: render the their-side text with conflict markers,
walking the conflicts in reverse order. -/
def create_marked_merge (base_content your_content their_content : String) : String :=
  let diff_result := compare_versions base_content your_content their_content
  if diff_result.conflicts.isEmpty then
    (attempt_auto_merge base_content your_content their_content).getD their_content
  else
    let result_lines := rustLines their_content
    joinLines (diff_result.conflicts.reverse.foldl spliceMarkers result_lines)

/-- Does `pat` start the character list? -/
def startsChars : List Char → List Char → Bool
  | [], _ => true
  | _ :: _, [] => false
  | p :: ps, c :: cs => p = c && startsChars ps cs

/-- Does the line (as a string) start with the given marker? -/
def lineStarts (marker line : String) : Bool :=
  startsChars marker.data line.data

/-- The regex `<<<<<<< .*\n` matches somewhere in `cs`: an occurrence of
`"<<<<<<< "` with a newline later in the text. -/
def hasStartMarker : List Char → Bool
  | [] => false
  | c :: cs =>
    (startsChars "<<<<<<< ".data (c :: cs) && ((c :: cs).drop 8).any (· = '\n')) ||
    hasStartMarker cs

/-- The marker-stripping walk of `extract_resolved_content`: drop marker lines,
drop the current-changes section, keep everything else. -/
def resolveWalk : List String → Bool → Bool → List String
  | [], _, _ => []
  | line :: rest, in_conflict, current_section =>
    if lineStarts "<<<<<<< " line then resolveWalk rest true true
    else if line = "=======" then resolveWalk rest in_conflict false
    else if lineStarts ">>>>>>> " line then resolveWalk rest false current_section
    else if !in_conflict || !current_section then
      line :: resolveWalk rest in_conflict current_section
    else
      resolveWalk rest in_conflict current_section

/-- `extract_resolved_content`: strip conflict markers, keeping the accepted
(your) side; text without a start marker is returned verbatim. -/
def extract_resolved_content (content : String) : String :=
  if hasStartMarker content.data then
    joinLines (resolveWalk (rustLines content) false true)
  else
    content

/-- SHA-256 hex digest of the content bytes, modelled by an injective
content-determined stand-in (no claim inspects digest values). -/
def calculate_content_hash (content : String) : String :=
  "sha256:" ++ content

/-! ### Lock registry (`src/utils/file_lock.rs`) -/

/-- `FileLock` registry entry. -/
structure FileLock where
  user_id : String
  file_id : String
  acquired_at : Nat
  expires_at : Nat
  duration : Nat
deriving DecidableEq, Repr

/-- The process-local registry map `file_id → FileLock`. -/
def LockRegistry : Type := List (String × FileLock)

/-- `FileLockRegistry::try_acquire_lock`: same-holder renewal (checked before
expiry, preserving `acquired_at`), expired-lock takeover, fresh acquisition,
or refusal. Returns the flag and the updated registry. -/
def try_acquire_lock (locks : LockRegistry) (file_id user_id : String)
    (duration_secs : Nat) (now : Nat) : Bool × LockRegistry :=
  match mapLookup locks file_id with
  | some lock =>
    if lock.user_id = user_id then
      (true, mapInsert locks file_id
        { user_id := user_id, file_id := file_id,
          acquired_at := lock.acquired_at,
          expires_at := now + duration_secs, duration := duration_secs })
    else if lock.expires_at ≤ now then
      (true, mapInsert (mapErase locks file_id) file_id
        { user_id := user_id, file_id := file_id, acquired_at := now,
          expires_at := now + duration_secs, duration := duration_secs })
    else
      (false, locks)
  | none =>
    (true, mapInsert locks file_id
      { user_id := user_id, file_id := file_id, acquired_at := now,
        expires_at := now + duration_secs, duration := duration_secs })

/-- `FileLockRegistry::release_lock`: remove the entry iff its holder is the
caller, regardless of expiry. -/
def release_lock (locks : LockRegistry) (file_id user_id : String) :
    Bool × LockRegistry :=
  match mapLookup locks file_id with
  | some lock =>
    if lock.user_id = user_id then (true, mapErase locks file_id)
    else (false, locks)
  | none => (false, locks)

/-- `FileLockRegistry::is_file_locked`: the holder when present and unexpired. -/
def is_file_locked (locks : LockRegistry) (file_id : String) (now : Nat) :
    Option String :=
  match mapLookup locks file_id with
  | some lock => if lock.expires_at ≤ now then none else some lock.user_id
  | none => none

/-- `FileLockRegistry::can_user_edit`: no valid lock, or held by the caller. -/
def can_user_edit (locks : LockRegistry) (file_id user_id : String) (now : Nat) :
    Bool :=
  match is_file_locked locks file_id now with
  | some lock_user_id => lock_user_id = user_id
  | none => true

/-- `FileLockRegistry::cleanup_expired_locks`: drop all expired entries,
returning how many were removed. -/
def cleanup_expired_locks (locks : LockRegistry) (now : Nat) : Nat × LockRegistry :=
  let remaining := locks.filter (fun p => now < p.2.expires_at)
  (locks.length - remaining.length, remaining)

/-! ### Version store (`src/utils/version_control.rs`, `version_storage`)

One file's slice of `./storage/versions/{file_id}`: the metadata document
(absent until first written) and the content blobs keyed by version id. The
best-effort mirror write to the legacy non-versioned path is not modelled (it
touches neither metadata nor version blobs). -/

/-- Persistent per-file state. -/
structure FileState where
  metadata : Option VersionedFileMetadata
  blobs : List (String × String)
deriving DecidableEq, Repr

/-- The state of a file nobody has ever written. -/
def emptyFileState : FileState := { metadata := none, blobs := [] }

/-- `load_versioned_file_metadata`: the stored document, or the well-formed
empty sentinel (`current_version = "initial"`, empty maps) when missing. -/
def load_versioned_file_metadata (st : FileState) (file_id : String) (now : Nat) :
    VersionedFileMetadata :=
  match st.metadata with
  | some metadata => metadata
  | none =>
    { file_id := file_id, file_name := "unknown.md", current_version := "initial",
      versions := [], branches := [], active_editors := [],
      last_modified := now, team_id := none, owner_id := "unknown" }

/-- `save_versioned_file_metadata`: atomic replacement of the document. -/
def save_versioned_file_metadata (st : FileState)
    (metadata : VersionedFileMetadata) : FileState :=
  { st with metadata := some metadata }

/-- `save_file_version`: write the content blob for a version id. -/
def save_file_version (st : FileState) (version_id content : String) : FileState :=
  { st with blobs := mapInsert st.blobs version_id content }

/-- `get_file_version_content`: the blob, or `NotFound` when missing. -/
def get_file_version_content (st : FileState) (version_id : String) :
    Except ServiceError String :=
  match mapLookup st.blobs version_id with
  | some content => Except.ok content
  | none => Except.error ServiceError.NotFound

/-- `initialize_file_versioning`: create the metadata document with a single
initial version, then write the initial blob. -/
def initialize_file_versioning (st : FileState)
    (file_id file_name content owner_id : String) (team_id : Option String)
    (fresh_id : String) (now : Nat) : VersionedFileMetadata × FileState :=
  let initial_version : FileVersion :=
    { version_id := fresh_id, timestamp := now, user_id := owner_id,
      username := none, message := some "Initial version",
      content_hash := calculate_content_hash content }
  let metadata : VersionedFileMetadata :=
    { file_id := file_id, file_name := file_name, current_version := fresh_id,
      versions := [(fresh_id, initial_version)], branches := [],
      active_editors := [], last_modified := now, team_id := team_id,
      owner_id := owner_id }
  let st := save_versioned_file_metadata st metadata
  let st := save_file_version st fresh_id content
  (metadata, st)

/-- The roster update of `register_active_editor`: drop any entry of the user,
then append a new one. -/
def rosterRegister (roster : List ActiveEditor) (user_id : String)
    (branch : Option String) (now : Nat) : List ActiveEditor :=
  (roster.filter (fun editor => editor.user_id ≠ user_id)) ++
    [{ user_id := user_id, username := none, editing_since := now, branch := branch }]

/-- The roster update of `unregister_active_editor`: drop the user's entries. -/
def rosterUnregister (roster : List ActiveEditor) (user_id : String) :
    List ActiveEditor :=
  roster.filter (fun editor => editor.user_id ≠ user_id)

/-- `register_active_editor`: load (or default) the metadata, replace the
user's roster entry, persist; returns the new roster. -/
def register_active_editor (st : FileState) (file_id user_id : String)
    (branch : Option String) (now : Nat) : List ActiveEditor × FileState :=
  let metadata := load_versioned_file_metadata st file_id now
  let metadata :=
    { metadata with active_editors := rosterRegister metadata.active_editors user_id branch now }
  (metadata.active_editors, save_versioned_file_metadata st metadata)

/-- `unregister_active_editor`: remove the user's roster entry and persist. -/
def unregister_active_editor (st : FileState) (file_id user_id : String)
    (now : Nat) : List ActiveEditor × FileState :=
  let metadata := load_versioned_file_metadata st file_id now
  let metadata :=
    { metadata with active_editors := rosterUnregister metadata.active_editors user_id }
  (metadata.active_editors, save_versioned_file_metadata st metadata)

/-- `create_branch`: validate the base version (`"initial"` is exempt), write
an optional initial-content version, insert the branch, persist. -/
def create_branch (st : FileState) (file_id branch_name base_version user_id : String)
    (initial_content : Option String) (fresh_branch_id fresh_version_id : String)
    (now : Nat) : Except ServiceError (FileBranch × FileState) :=
  let metadata := load_versioned_file_metadata st file_id now
  if ¬ (mapContains metadata.versions base_version = true) ∧ base_version ≠ "initial" then
    Except.error (ServiceError.BadRequest ("Base version " ++ base_version ++ " not found"))
  else
    let (head_version, metadata, st) :=
      match initial_content with
      | some content =>
        let version : FileVersion :=
          { version_id := fresh_version_id, timestamp := now, user_id := user_id,
            username := none, message := some ("Created branch: " ++ branch_name),
            content_hash := calculate_content_hash content }
        let st := save_file_version st fresh_version_id content
        let metadata :=
          { metadata with versions := mapInsert metadata.versions fresh_version_id version }
        (fresh_version_id, metadata, st)
      | none => (base_version, metadata, st)
    let branch : FileBranch :=
      { branch_id := fresh_branch_id, name := branch_name, created_by := user_id,
        created_at := now, base_version := base_version, head_version := head_version }
    let metadata := { metadata with branches := mapInsert metadata.branches fresh_branch_id branch }
    Except.ok (branch, save_versioned_file_metadata st metadata)

/-- `update_branch_head`: set the head of an existing branch and persist. -/
def update_branch_head (st : FileState) (file_id branch_id new_head_version : String)
    (now : Nat) : Except ServiceError FileState :=
  let metadata := load_versioned_file_metadata st file_id now
  match mapLookup metadata.branches branch_id with
  | some branch =>
    let updated := { branch with head_version := new_head_version }
    let metadata := { metadata with branches := mapInsert metadata.branches branch_id updated }
    Except.ok (save_versioned_file_metadata st metadata)
  | none => Except.error (ServiceError.BadRequest ("Branch " ++ branch_id ++ " not found"))

/-- Stable insertion for the history sort: `v` goes before the first element
with a strictly smaller timestamp (matching Rust's stable
`sort_by(|a, b| b.timestamp.cmp(&a.timestamp))`, which any stable sort with
that comparator determines uniquely). -/
def insertByTimestampDesc (v : FileVersion) : List FileVersion → List FileVersion
  | [] => [v]
  | w :: ws =>
    if w.timestamp ≤ v.timestamp then v :: w :: ws
    else w :: insertByTimestampDesc v ws

/-- Stable sort by timestamp descending. -/
def sortByTimestampDesc (versions : List FileVersion) : List FileVersion :=
  versions.foldr insertByTimestampDesc []

/-- `get_file_versions`: the (branch-filtered) version list sorted by
timestamp descending, the pre-pagination total, and the current version.
With a branch filter only the branch head is returned. -/
def get_file_versions (st : FileState) (file_id : String) (branch : Option String)
    (limit skip : Option Nat) (now : Nat) :
    Except ServiceError (List FileVersion × Nat × String) :=
  let metadata := load_versioned_file_metadata st file_id now
  let versionsE : Except ServiceError (List FileVersion) :=
    match branch with
    | some branch_id =>
      match mapLookup metadata.branches branch_id with
      | some branch =>
        match mapLookup metadata.versions branch.head_version with
        | some v => Except.ok [v]
        | none => Except.error ServiceError.InternalServerError
      | none => Except.error (ServiceError.BadRequest ("Branch " ++ branch_id ++ " not found"))
    | none => Except.ok (metadata.versions.map (fun p => p.2))
  match versionsE with
  | Except.error e => Except.error e
  | Except.ok versions =>
    let sorted_versions := sortByTimestampDesc versions
    let total_count := sorted_versions.length
    let skip_count := skip.getD 0
    let paginated_versions :=
      match limit with
      | some limit_count => (sorted_versions.drop skip_count).take limit_count
      | none => sorted_versions.drop skip_count
    Except.ok (paginated_versions, total_count, metadata.current_version)

/-! ### Save pipeline and version routes (`src/routes/version_routes.rs`)

Each handler is a pure function of the file state, the authenticated
principal, the request body, the minted UUID and the clock. The lock gate
lives in middleware, outside these handlers. -/

/-- `save_with_conflict_detection`: first-save bootstrap, stale-base
auto-merge / conflict answer, or clean save. The legacy mirror write of the
clean path touches neither metadata nor version blobs and is not modelled. -/
def save_with_conflict_detection (st : FileState) (file_id user_id : String)
    (active_team_id : Option String) (content base_version : String)
    (message : Option String) (fresh_id : String) (now : Nat) :
    Except ServiceError (SaveVersionedFileResponse × FileState) :=
  let metadata := load_versioned_file_metadata st file_id now
  if metadata.versions.isEmpty then
    -- the storage path ends in the file id, so its last component is the file id
    let file_name := file_id
    let (metadata, st) :=
      initialize_file_versioning st file_id file_name content user_id
        active_team_id fresh_id now
    Except.ok
      ({ status := SaveStatus.Saved, new_version := some metadata.current_version,
         conflicts := none, message := "File saved with version control enabled" }, st)
  else if base_version ≠ metadata.current_version ∧ base_version ≠ "initial" then
    match get_file_version_content st base_version with
    | Except.error _ => Except.error ServiceError.InternalServerError
    | Except.ok base_content =>
      match get_file_version_content st metadata.current_version with
      | Except.error _ => Except.error ServiceError.InternalServerError
      | Except.ok current_content =>
        match attempt_auto_merge base_content content current_content with
        | some merged_content =>
          let version : FileVersion :=
            { version_id := fresh_id, timestamp := now, user_id := user_id,
              username := none, message := some "Auto-merged changes",
              content_hash := calculate_content_hash merged_content }
          let st := save_file_version st fresh_id merged_content
          let metadata :=
            { metadata with versions := mapInsert metadata.versions fresh_id version,
                            current_version := fresh_id, last_modified := now }
          let st := save_versioned_file_metadata st metadata
          Except.ok
            ({ status := SaveStatus.AutoMerged, new_version := some fresh_id,
               conflicts := none, message := "Changes were automatically merged" }, st)
        | none =>
          let diff := compare_versions base_content content current_content
          Except.ok
            ({ status := SaveStatus.Conflict,
               new_version := some metadata.current_version,
               conflicts := some diff.conflicts,
               message := "Conflict detected. Please resolve manually." }, st)
  else
    let version : FileVersion :=
      { version_id := fresh_id, timestamp := now, user_id := user_id,
        username := none, message := message,
        content_hash := calculate_content_hash content }
    let st := save_file_version st fresh_id content
    let metadata :=
      { metadata with versions := mapInsert metadata.versions fresh_id version,
                      current_version := fresh_id, last_modified := now }
    let st := save_versioned_file_metadata st metadata
    Except.ok
      ({ status := SaveStatus.Saved, new_version := some fresh_id,
         conflicts := none, message := "File saved successfully" }, st)

/-- `resolve_conflicts`: strip conflict markers, mint a version with the
resolved text and the supplied message, advance `current_version`. The
request's `base_version` and `current_version` fields are not consulted. -/
def resolve_conflicts (st : FileState) (file_id user_id content : String)
    (rq_base_version rq_current_version message : String) (fresh_id : String)
    (now : Nat) : Except ServiceError (SaveVersionedFileResponse × FileState) :=
  let _ := rq_base_version
  let _ := rq_current_version
  let resolved_content := extract_resolved_content content
  let metadata := load_versioned_file_metadata st file_id now
  let version : FileVersion :=
    { version_id := fresh_id, timestamp := now, user_id := user_id,
      username := none, message := some message,
      content_hash := calculate_content_hash resolved_content }
  let st := save_file_version st fresh_id resolved_content
  let metadata :=
    { metadata with versions := mapInsert metadata.versions fresh_id version,
                    current_version := fresh_id, last_modified := now }
  let st := save_versioned_file_metadata st metadata
  Except.ok
    ({ status := SaveStatus.Saved, new_version := some fresh_id,
       conflicts := none, message := "Conflicts resolved successfully" }, st)

/-- Outcome of `merge_branches`: the 200 `merged` body or the 409 `conflict`
body. -/
inductive MergeOutcome where
  | merged (new_version : String)
  | conflictFound (conflicts : List Conflict) (marked_content : String)
deriving DecidableEq, Repr

/-- `merge_branches`: three-way merge of the source head into the target
(branch head, or `current_version` for the `main`/`master` alias), using the
source branch's recorded base version as the common ancestor. -/
def merge_branches (st : FileState) (file_id user_id source_branch target_branch : String)
    (message : Option String) (fresh_id : String) (now : Nat) :
    Except ServiceError (MergeOutcome × FileState) :=
  let message := message.getD ("Merged branch " ++ source_branch ++ " into " ++ target_branch)
  let metadata := load_versioned_file_metadata st file_id now
  match mapLookup metadata.branches source_branch with
  | none => Except.error (ServiceError.BadRequest ("Source branch " ++ source_branch ++ " not found"))
  | some source =>
    let targetE : Except ServiceError String :=
      if target_branch = "main" ∨ target_branch = "master" then
        Except.ok metadata.current_version
      else
        match mapLookup metadata.branches target_branch with
        | some target => Except.ok target.head_version
        | none => Except.error (ServiceError.BadRequest ("Target branch " ++ target_branch ++ " not found"))
    match targetE with
    | Except.error e => Except.error e
    | Except.ok target_version =>
      match get_file_version_content st source.head_version with
      | Except.error e => Except.error e
      | Except.ok source_content =>
        match get_file_version_content st target_version with
        | Except.error e => Except.error e
        | Except.ok target_content =>
          match get_file_version_content st source.base_version with
          | Except.error e => Except.error e
          | Except.ok base_content =>
            match attempt_auto_merge base_content source_content target_content with
            | some merged_content =>
              let version : FileVersion :=
                { version_id := fresh_id, timestamp := now, user_id := user_id,
                  username := none, message := some message,
                  content_hash := calculate_content_hash merged_content }
              let st := save_file_version st fresh_id merged_content
              let metadata :=
                { metadata with versions := mapInsert metadata.versions fresh_id version }
              let metadata :=
                if target_branch = "main" ∨ target_branch = "master" then
                  { metadata with current_version := fresh_id }
                else
                  match mapLookup metadata.branches target_branch with
                  | some target =>
                    let updated := { target with head_version := fresh_id }
                    { metadata with branches := mapInsert metadata.branches target_branch updated }
                  | none => metadata
              let metadata := { metadata with last_modified := now }
              let st := save_versioned_file_metadata st metadata
              Except.ok (MergeOutcome.merged fresh_id, st)
            | none =>
              let diff := compare_versions base_content source_content target_content
              let marked_content := create_marked_merge base_content source_content target_content
              Except.ok (MergeOutcome.conflictFound diff.conflicts marked_content, st)

/-! ### Reachable file states

All states a single file's store can be driven into by the core operations,
starting from the never-written state. Operations that signal a
`ServiceError` perform no transition. -/

/-- Reachability of a `FileState` under the core operations. -/
inductive Reachable : FileState → Prop where
  | empty : Reachable emptyFileState
  | registerEditor {st : FileState} (file_id user_id : String)
      (branch : Option String) (now : Nat) :
      Reachable st → Reachable (register_active_editor st file_id user_id branch now).2
  | unregisterEditor {st : FileState} (file_id user_id : String) (now : Nat) :
      Reachable st → Reachable (unregister_active_editor st file_id user_id now).2
  | initFileVersioning {st : FileState}
      (file_id file_name content owner_id : String) (team_id : Option String)
      (fresh_id : String) (now : Nat) :
      Reachable st →
      Reachable (initialize_file_versioning st file_id file_name content owner_id
        team_id fresh_id now).2
  | save {st st2 : FileState} {resp : SaveVersionedFileResponse}
      (file_id user_id : String) (active_team_id : Option String)
      (content base_version : String) (message : Option String)
      (fresh_id : String) (now : Nat) :
      Reachable st →
      save_with_conflict_detection st file_id user_id active_team_id content
        base_version message fresh_id now = Except.ok (resp, st2) →
      Reachable st2
  | resolve {st st2 : FileState} {resp : SaveVersionedFileResponse}
      (file_id user_id content rq_base rq_current message fresh_id : String)
      (now : Nat) :
      Reachable st →
      resolve_conflicts st file_id user_id content rq_base rq_current message
        fresh_id now = Except.ok (resp, st2) →
      Reachable st2
  | createBranch {st st2 : FileState} {branch : FileBranch}
      (file_id branch_name base_version user_id : String)
      (initial_content : Option String) (fresh_branch_id fresh_version_id : String)
      (now : Nat) :
      Reachable st →
      create_branch st file_id branch_name base_version user_id initial_content
        fresh_branch_id fresh_version_id now = Except.ok (branch, st2) →
      Reachable st2
  | updateBranchHead {st st2 : FileState}
      (file_id branch_id new_head_version : String) (now : Nat) :
      Reachable st →
      update_branch_head st file_id branch_id new_head_version now = Except.ok st2 →
      Reachable st2
  | mergeBranches {st st2 : FileState} {outcome : MergeOutcome}
      (file_id user_id source_branch target_branch : String)
      (message : Option String) (fresh_id : String) (now : Nat) :
      Reachable st →
      merge_branches st file_id user_id source_branch target_branch message
        fresh_id now = Except.ok (outcome, st2) →
      Reachable st2

/-- The metadata invariant under scrutiny in the claims: the current-version
pointer is either the virgin sentinel or a key of the versions map. -/
def CurrentPointsIntoVersions (metadata : VersionedFileMetadata) : Prop :=
  metadata.current_version = "initial" ∨
    mapContains metadata.versions metadata.current_version = true

/-! ### Editor-call sequences (for the roster claims) -/

/-- One call against the editor roster of a file. -/
inductive EditorCall where
  | reg (user_id : String) (branch : Option String) (now : Nat)
  | unreg (user_id : String) (now : Nat)
deriving DecidableEq, Repr

/-- Apply a sequence of register/unregister calls to a file state. -/
def applyEditorCalls (file_id : String) : List EditorCall → FileState → FileState
  | [], st => st
  | EditorCall.reg user_id branch now :: calls, st =>
    applyEditorCalls file_id calls (register_active_editor st file_id user_id branch now).2
  | EditorCall.unreg user_id now :: calls, st =>
    applyEditorCalls file_id calls (unregister_active_editor st file_id user_id now).2

/-- Number of roster entries carried by a given user. -/
def rosterCount (roster : List ActiveEditor) (user_id : String) : Nat :=
  (roster.filter (fun editor => editor.user_id = user_id)).length

/-- The roster a state presents for a file (what `load` would hand out). -/
def rosterOf (st : FileState) (file_id : String) (now : Nat) : List ActiveEditor :=
  (load_versioned_file_metadata st file_id now).active_editors

/-! ### Association-list lemmas -/

/-- Looking up the freshly inserted key yields the inserted value. -/
theorem mapLookup_mapInsert_self {α : Type} (m : List (String × α)) (k : String)
    (v : α) : mapLookup (mapInsert m k v) k = some v := by
  induction m with
  | nil => simp [mapInsert, mapLookup]
  | cons p rest ih =>
    by_cases hk : p.1 = k
    · simp [mapInsert, hk, mapLookup]
    · simp [mapInsert, hk, mapLookup, ih]

/-- Insertion never removes a key. -/
theorem mapContains_mapInsert_of {α : Type} (m : List (String × α))
    (k k2 : String) (v : α) (h : mapContains m k2 = true) :
    mapContains (mapInsert m k v) k2 = true := by
  induction m with
  | nil => simp [mapContains, mapLookup] at h
  | cons p rest ih =>
    obtain ⟨a, b⟩ := p
    simp only [mapContains, mapLookup] at h
    by_cases hak : a = k
    · subst hak
      by_cases hk2 : a = k2
      · subst hk2
        simp [mapContains, mapInsert, mapLookup]
      · rw [if_neg hk2] at h
        simp only [mapContains, mapInsert, if_pos rfl, mapLookup]
        rw [if_neg hk2]
        exact h
    · simp only [mapContains, mapInsert, if_neg hak, mapLookup]
      by_cases hk2 : a = k2
      · rw [if_pos hk2]
        rfl
      · rw [if_neg hk2] at h
        rw [if_neg hk2]
        exact ih h

/-- The inserted key is contained. -/
theorem mapContains_mapInsert_self {α : Type} (m : List (String × α))
    (k : String) (v : α) : mapContains (mapInsert m k v) k = true := by
  simp [mapContains, mapLookup_mapInsert_self]

/-! ### C1 — successful saves answer with the new current version -/

/-- C1: whenever the save pipeline answers `saved` or `auto_merged`, the
returned `new_version` is the `current_version` of the metadata stored by the
operation, and that id is a key of its versions map (a `FileVersion` record
is stored under it). -/
theorem save_ok_new_version_is_current (st : FileState) (file_id user_id : String)
    (active_team_id : Option String) (content base_version : String)
    (message : Option String) (fresh_id : String) (now : Nat)
    (resp : SaveVersionedFileResponse) (st2 : FileState)
    (h : save_with_conflict_detection st file_id user_id active_team_id content
      base_version message fresh_id now = Except.ok (resp, st2))
    (hs : resp.status = SaveStatus.Saved ∨ resp.status = SaveStatus.AutoMerged) :
    ∃ metadata, st2.metadata = some metadata ∧
      resp.new_version = some metadata.current_version ∧
      (mapLookup metadata.versions metadata.current_version).isSome = true := by
  simp only [save_with_conflict_detection, initialize_file_versioning,
    save_file_version, save_versioned_file_metadata] at h
  split at h
  · simp only [Except.ok.injEq, Prod.mk.injEq] at h
    obtain ⟨hr, hst⟩ := h
    subst hr hst
    exact ⟨_, rfl, rfl, by simp [mapLookup]⟩
  · split at h
    · split at h
      · exact absurd h (by simp)
      · split at h
        · exact absurd h (by simp)
        · split at h
          · simp only [Except.ok.injEq, Prod.mk.injEq] at h
            obtain ⟨hr, hst⟩ := h
            subst hr hst
            exact ⟨_, rfl, rfl, by simp [mapLookup_mapInsert_self]⟩
          · simp only [Except.ok.injEq, Prod.mk.injEq] at h
            obtain ⟨hr, hst⟩ := h
            subst hr
            simp at hs
    · simp only [Except.ok.injEq, Prod.mk.injEq] at h
      obtain ⟨hr, hst⟩ := h
      subst hr hst
      exact ⟨_, rfl, rfl, by simp [mapLookup_mapInsert_self]⟩

/-- Witness for C1: a concrete first save on a virgin file. -/
theorem save_ok_new_version_is_current_witness :
    ∃ metadata,
      (FileState.mk
        (some (VersionedFileMetadata.mk "f" "f" "v0"
          [("v0", FileVersion.mk "v0" 0 "u" none (some "Initial version") "sha256:hello\n")]
          [] [] 0 none "u"))
        [("v0", "hello\n")]).metadata = some metadata ∧
      (some "v0" : Option String) = some metadata.current_version ∧
      (mapLookup metadata.versions metadata.current_version).isSome = true :=
  save_ok_new_version_is_current emptyFileState "f" "u" none "hello\n" "initial" none
    "v0" 0
    (SaveVersionedFileResponse.mk SaveStatus.Saved (some "v0") none
      "File saved with version control enabled")
    (FileState.mk
      (some (VersionedFileMetadata.mk "f" "f" "v0"
        [("v0", FileVersion.mk "v0" 0 "u" none (some "Initial version") "sha256:hello\n")]
        [] [] 0 none "u"))
      [("v0", "hello\n")])
    rfl (Or.inl rfl)

/-! ### C2 — an unmergeable stale save answers `conflict` and writes nothing -/

/-- C2: with a stale base (neither the current version nor `"initial"`), both
contents fetchable, and `attempt_auto_merge` failing, the pipeline answers
`conflict` carrying `compare_versions`' conflicts and the pre-existing
`current_version`, and the file state — metadata, `current_version`,
versions map, blobs — is returned unchanged. -/
theorem save_conflict_writes_nothing (st : FileState) (file_id user_id : String)
    (active_team_id : Option String) (content base_version : String)
    (message : Option String) (fresh_id : String) (now : Nat)
    (base_content current_content : String)
    (hne : (load_versioned_file_metadata st file_id now).versions.isEmpty = false)
    (hb1 : base_version ≠ (load_versioned_file_metadata st file_id now).current_version)
    (hb2 : base_version ≠ "initial")
    (hbase : get_file_version_content st base_version = Except.ok base_content)
    (hcur : get_file_version_content st
      (load_versioned_file_metadata st file_id now).current_version =
      Except.ok current_content)
    (hmerge : attempt_auto_merge base_content content current_content = none) :
    save_with_conflict_detection st file_id user_id active_team_id content
      base_version message fresh_id now =
    Except.ok
      ({ status := SaveStatus.Conflict,
         new_version := some (load_versioned_file_metadata st file_id now).current_version,
         conflicts := some (compare_versions base_content content current_content).conflicts,
         message := "Conflict detected. Please resolve manually." }, st) := by
  simp only [save_with_conflict_detection, hne, Bool.false_eq_true, if_false,
    if_pos (And.intro hb1 hb2), hbase, hcur, hmerge]

/-- A two-version file whose head (`v1`) edited line 0 of the base (`v0`). -/
def demoConflictState : FileState :=
  FileState.mk
    (some (VersionedFileMetadata.mk "f" "f.md" "v1"
      [("v0", FileVersion.mk "v0" 1 "u" none none (calculate_content_hash "L1\nL2\nL3\n")),
       ("v1", FileVersion.mk "v1" 2 "u" none none (calculate_content_hash "L1a\nL2\nL3\n"))]
      [] [] 2 none "u"))
    [("v0", "L1\nL2\nL3\n"), ("v1", "L1a\nL2\nL3\n")]

/-- Witness for C2: a stale save editing the adjacent line answers `conflict`
and leaves the state untouched. -/
theorem save_conflict_writes_nothing_witness :
    save_with_conflict_detection demoConflictState "f" "u2" none "L1\nL2b\nL3\n"
      "v0" none "v2" 5 =
    Except.ok
      ({ status := SaveStatus.Conflict,
         new_version :=
           some (load_versioned_file_metadata demoConflictState "f" 5).current_version,
         conflicts :=
           some (compare_versions "L1\nL2\nL3\n" "L1\nL2b\nL3\n" "L1a\nL2\nL3\n").conflicts,
         message := "Conflict detected. Please resolve manually." },
       demoConflictState) :=
  save_conflict_writes_nothing demoConflictState "f" "u2" none "L1\nL2b\nL3\n" "v0"
    none "v2" 5 "L1\nL2\nL3\n" "L1a\nL2\nL3\n" rfl (by decide) (by decide) rfl rfl rfl

/-! ### C3 — a convergent edit can survive auto-merge

The `your` side deletes base line 0, the `their` side deletes base line 3;
positionally both sides then hold `"E"` at index 3 where the base holds
`"D"`, exercising the convergent-edit branch of the merge loop, while the two
one-sided diffs (a deletion at lines `[0,1]` and one at `[3,4]`) do not
overlap, so no conflict blocks the merge. -/

/-- C3: inputs on which both sides differ from the base at line 3 yet agree
with each other, the merge succeeds, and the merged text carries the common
value at line 3. -/
theorem attempt_auto_merge_convergent_line :
    (rustLines "B\nC\nD\nE\nF\n")[3]? = some "E" ∧
    (rustLines "A\nB\nC\nE\nF\n")[3]? = some "E" ∧
    (rustLines "A\nB\nC\nD\nE\nF\n")[3]? = some "D" ∧
    ("E" : String) ≠ "D" ∧
    attempt_auto_merge "A\nB\nC\nD\nE\nF\n" "B\nC\nD\nE\nF\n" "A\nB\nC\nE\nF\n" =
      some "B\nC\nD\nE\nF" ∧
    (rustLines "B\nC\nD\nE\nF")[3]? = some "E" := by
  refine ⟨by decide, by decide, by decide, by decide, rfl, by decide⟩

/-! ### C4 — the documented disjoint-line auto-merge scenario fails

The spec's scenario (and the repository's own `test_conflict_detection`,
which asserts `auto_merged` for edits on two distinct adjacent lines) expects
this input to auto-merge. It does not: the deletion ranges `[1,2]` (line 1,
your side) and `[0,1]` (line 0, their side) share the endpoint 1, and
`changes_overlap` compares closed intervals, so `detect_conflicts` reports a
conflict and `attempt_auto_merge` aborts; the save pipeline therefore answers
`conflict`, not `auto_merged`. (Independently, a successful merge joins lines
with `\n` and would drop the trailing newline the scenario demands.) -/

/-- C4: evaluating the code at the claimed input: the merge aborts, so no
merged version is stored. -/
theorem attempt_auto_merge_adjacent_lines_aborts :
    attempt_auto_merge "L1\nL2\nL3\n" "L1\nL2b\nL3\n" "L1a\nL2\nL3\n" = none ∧
    (compare_versions "L1\nL2\nL3\n" "L1\nL2b\nL3\n" "L1a\nL2\nL3\n").can_auto_merge
      = false :=
  ⟨rfl, rfl⟩

/-! ### C5 — lock acquisition

The same-holder check runs before the expiry check, so an expired lock whose
holder re-acquires is *renewed* (original `acquired_at` kept), not replaced
by a fresh lock with `acquired_at = now` as the claim states. -/

/-- Counterexample to C5 as stated: an expired entry (`expires_at = 5 ≤ now =
10`) held by the calling user is renewed with its original `acquired_at = 0`,
not installed fresh with `acquired_at = now = 10`. -/
theorem try_acquire_lock_expired_self_counterexample :
    (5 : Nat) ≤ 10 ∧
    (try_acquire_lock [("f", FileLock.mk "u" "f" 0 5 5)] "f" "u" 300 10).1 = true ∧
    mapLookup (try_acquire_lock [("f", FileLock.mk "u" "f" 0 5 5)] "f" "u" 300 10).2 "f"
      = some (FileLock.mk "u" "f" 0 310 300) ∧
    (0 : Nat) ≠ 10 := by
  refine ⟨by decide, rfl, rfl, by decide⟩

/-- C5 as amended: a fresh lock (`acquired_at = now`) is installed and `true`
returned when no entry exists or when the entry is expired and held by
another user; a same-holder entry — expired or not — is renewed preserving
`acquired_at` with `expires_at = now + duration`; an unexpired entry of
another user leaves the registry unchanged and returns `false`. -/
theorem try_acquire_lock_cases (locks : LockRegistry) (file_id user_id : String)
    (duration_secs now : Nat) :
    (∀ l0, mapLookup locks file_id = some l0 → l0.user_id = user_id →
      (try_acquire_lock locks file_id user_id duration_secs now).1 = true ∧
      mapLookup (try_acquire_lock locks file_id user_id duration_secs now).2 file_id =
        some (FileLock.mk user_id file_id l0.acquired_at (now + duration_secs) duration_secs)) ∧
    (∀ l0, mapLookup locks file_id = some l0 → l0.user_id ≠ user_id →
      l0.expires_at ≤ now →
      (try_acquire_lock locks file_id user_id duration_secs now).1 = true ∧
      mapLookup (try_acquire_lock locks file_id user_id duration_secs now).2 file_id =
        some (FileLock.mk user_id file_id now (now + duration_secs) duration_secs)) ∧
    (∀ l0, mapLookup locks file_id = some l0 → l0.user_id ≠ user_id →
      now < l0.expires_at →
      try_acquire_lock locks file_id user_id duration_secs now = (false, locks)) ∧
    (mapLookup locks file_id = none →
      (try_acquire_lock locks file_id user_id duration_secs now).1 = true ∧
      mapLookup (try_acquire_lock locks file_id user_id duration_secs now).2 file_id =
        some (FileLock.mk user_id file_id now (now + duration_secs) duration_secs)) := by
  refine ⟨?_, ?_, ?_, ?_⟩
  · intro l0 hl hu
    simp [try_acquire_lock, hl, hu, mapLookup_mapInsert_self]
  · intro l0 hl hu hexp
    simp [try_acquire_lock, hl, hu, hexp, mapLookup_mapInsert_self]
  · intro l0 hl hu hlt
    simp [try_acquire_lock, hl, hu, Nat.not_le.mpr hlt]
  · intro hl
    simp [try_acquire_lock, hl, mapLookup_mapInsert_self]

/-- Witness for the amended C5: a concrete unexpired same-holder renewal
preserves the original acquisition time. -/
theorem try_acquire_lock_cases_witness :
    (try_acquire_lock [("f", FileLock.mk "u" "f" 2 20 18)] "f" "u" 300 7).1 = true ∧
    mapLookup (try_acquire_lock [("f", FileLock.mk "u" "f" 2 20 18)] "f" "u" 300 7).2 "f"
      = some (FileLock.mk "u" "f" 2 307 300) :=
  (try_acquire_lock_cases [("f", FileLock.mk "u" "f" 2 20 18)] "f" "u" 300 7).1
    (FileLock.mk "u" "f" 2 20 18) rfl rfl

/-! ### C10 — expired entries still count as held for release and renewal -/

/-- C10: an expired entry whose holder calls `release_lock` is removed with
result `true` (holder equality is the only check), and the holder can likewise
renew it — even though `is_file_locked` already reports the file as unlocked. -/
theorem release_lock_expired_entry (locks : LockRegistry) (file_id user_id : String)
    (l0 : FileLock) (duration_secs now : Nat)
    (hl : mapLookup locks file_id = some l0)
    (hu : l0.user_id = user_id)
    (hexp : l0.expires_at ≤ now) :
    release_lock locks file_id user_id = (true, mapErase locks file_id) ∧
    is_file_locked locks file_id now = none ∧
    (try_acquire_lock locks file_id user_id duration_secs now).1 = true := by
  refine ⟨?_, ?_, ?_⟩
  · simp [release_lock, hl, hu]
  · simp [is_file_locked, hl, hexp]
  · simp [try_acquire_lock, hl, hu]

/-- Witness for C10: a concrete expired lock released by its holder. -/
theorem release_lock_expired_entry_witness :
    release_lock [("f", FileLock.mk "u" "f" 0 5 5)] "f" "u" =
      (true, mapErase [("f", FileLock.mk "u" "f" 0 5 5)] "f") ∧
    is_file_locked [("f", FileLock.mk "u" "f" 0 5 5)] "f" 10 = none ∧
    (try_acquire_lock [("f", FileLock.mk "u" "f" 0 5 5)] "f" "u" 300 10).1 = true :=
  release_lock_expired_entry [("f", FileLock.mk "u" "f" 0 5 5)] "f" "u"
    (FileLock.mk "u" "f" 0 5 5) 300 10 rfl rfl (by decide)

/-! ### C8 — at most one roster entry per user -/

/-- Entries surviving the removal of a user cannot belong to that user. -/
theorem filter_eq_after_filter_ne (roster : List ActiveEditor) (user_id : String) :
    (roster.filter (fun editor => editor.user_id ≠ user_id)).filter
      (fun editor => editor.user_id = user_id) = [] := by
  induction roster with
  | nil => rfl
  | cons e rest ih =>
    by_cases h : e.user_id = user_id <;> simp [List.filter, h, ih]

/-- Registering leaves exactly one entry for the registered user. -/
theorem rosterCount_rosterRegister_self (roster : List ActiveEditor)
    (user_id : String) (branch : Option String) (now : Nat) :
    rosterCount (rosterRegister roster user_id branch now) user_id = 1 := by
  simp [rosterCount, rosterRegister, List.filter_append, filter_eq_after_filter_ne]

/-- Registering one user does not raise another user's entry count. -/
theorem rosterCount_rosterRegister_le (roster : List ActiveEditor)
    (user_id user2 : String) (branch : Option String) (now : Nat)
    (h : rosterCount roster user2 ≤ 1) :
    rosterCount (rosterRegister roster user_id branch now) user2 ≤ 1 := by
  by_cases hu : user2 = user_id
  · subst hu
    simp [rosterCount_rosterRegister_self]
  · simp only [rosterCount, rosterRegister, List.filter_append, List.length_append]
    have hne : user_id ≠ user2 := fun hh => hu hh.symm
    have hone : (List.filter (fun editor => editor.user_id = user2)
        [({ user_id := user_id, username := none, editing_since := now,
            branch := branch } : ActiveEditor)]).length = 0 := by
      simp [List.filter, hne]
    have hle : ((roster.filter (fun editor => editor.user_id ≠ user_id)).filter
        (fun editor => editor.user_id = user2)).length ≤
        (roster.filter (fun editor => editor.user_id = user2)).length :=
      List.Sublist.length_le (List.Sublist.filter _ (List.filter_sublist roster))
    simp only [rosterCount] at h
    omega

/-- Unregistering cannot raise an entry count. -/
theorem rosterCount_rosterUnregister_le (roster : List ActiveEditor)
    (user_id user2 : String) (h : rosterCount roster user2 ≤ 1) :
    rosterCount (rosterUnregister roster user_id) user2 ≤ 1 := by
  have hle : ((roster.filter (fun editor => editor.user_id ≠ user_id)).filter
      (fun editor => editor.user_id = user2)).length ≤
      (roster.filter (fun editor => editor.user_id = user2)).length :=
    List.Sublist.length_le (List.Sublist.filter _ (List.filter_sublist roster))
  simp only [rosterCount, rosterUnregister] at h ⊢
  omega

/-- The roster a state presents does not depend on the load clock. -/
theorem rosterOf_clock_independent (st : FileState) (file_id : String)
    (n1 n2 : Nat) : rosterOf st file_id n1 = rosterOf st file_id n2 := by
  cases h : st.metadata <;> simp [rosterOf, load_versioned_file_metadata, h]

/-- Registering updates the presented roster by `rosterRegister`. -/
theorem rosterOf_register (st : FileState) (file_id user_id : String)
    (branch : Option String) (now clock : Nat) :
    rosterOf (register_active_editor st file_id user_id branch now).2 file_id clock =
      rosterRegister (rosterOf st file_id now) user_id branch now := by
  cases h : st.metadata <;>
    simp [rosterOf, register_active_editor, load_versioned_file_metadata,
      save_versioned_file_metadata, h]

/-- Unregistering updates the presented roster by `rosterUnregister`. -/
theorem rosterOf_unregister (st : FileState) (file_id user_id : String)
    (now clock : Nat) :
    rosterOf (unregister_active_editor st file_id user_id now).2 file_id clock =
      rosterUnregister (rosterOf st file_id now) user_id := by
  cases h : st.metadata <;>
    simp [rosterOf, unregister_active_editor, load_versioned_file_metadata,
      save_versioned_file_metadata, h]

/-- The per-user bound survives any editor-call sequence. -/
theorem applyEditorCalls_count_le (file_id : String) (calls : List EditorCall)
    (st : FileState) (user_id : String) (clock : Nat)
    (h : rosterCount (rosterOf st file_id clock) user_id ≤ 1) :
    rosterCount (rosterOf (applyEditorCalls file_id calls st) file_id clock) user_id ≤ 1 := by
  induction calls generalizing st with
  | nil => exact h
  | cons call rest ih =>
    cases call with
    | reg u2 branch now =>
      refine ih _ ?_
      rw [rosterOf_register st file_id u2 branch now clock]
      exact rosterCount_rosterRegister_le _ u2 user_id branch now
        (by rw [rosterOf_clock_independent st file_id now clock]; exact h)
    | unreg u2 now =>
      refine ih _ ?_
      rw [rosterOf_unregister st file_id u2 now clock]
      exact rosterCount_rosterUnregister_le _ u2 user_id
        (by rw [rosterOf_clock_independent st file_id now clock]; exact h)

/-- C8: after any sequence of register/unregister calls from the virgin state
the roster holds at most one entry per user; and re-registering the same user
twice leaves exactly one entry for that user, from any starting state. -/
theorem roster_at_most_one_entry_per_user :
    (∀ (file_id : String) (calls : List EditorCall) (user_id : String) (clock : Nat),
      rosterCount (rosterOf (applyEditorCalls file_id calls emptyFileState) file_id clock)
        user_id ≤ 1) ∧
    (∀ (st : FileState) (file_id user_id : String) (b1 b2 : Option String) (n1 n2 : Nat),
      rosterCount
        ((register_active_editor (register_active_editor st file_id user_id b1 n1).2
          file_id user_id b2 n2).1) user_id = 1) := by
  constructor
  · intro file_id calls user_id clock
    refine applyEditorCalls_count_le file_id calls emptyFileState user_id clock ?_
    simp [rosterOf, emptyFileState, load_versioned_file_metadata, rosterCount]
  · intro st file_id user_id b1 b2 n1 n2
    have hfst : (register_active_editor (register_active_editor st file_id user_id b1 n1).2
        file_id user_id b2 n2).1 =
        rosterRegister (rosterOf (register_active_editor st file_id user_id b1 n1).2
          file_id n2) user_id b2 n2 := by
      cases h : ((register_active_editor st file_id user_id b1 n1).2).metadata <;>
        simp [register_active_editor, rosterOf, load_versioned_file_metadata, h]
    rw [hfst]
    exact rosterCount_rosterRegister_self _ user_id b2 n2

/-! ### C9 — the conflict emitted for an overlapping pair

The emitted `Conflict` takes its range and the base/your sections from the
your-side change, but its `current_content` is sliced over the *their-side*
change's range — not, as the claim states, over the your-side range. -/

/-- The conflict `detect_conflicts` emits for one overlapping pair. -/
def conflict_for (your_change their_change : TextChange)
    (base_content your_content their_content : String) : Conflict :=
  { start_line := your_change.start_line,
    end_line := your_change.end_line,
    base_content := extract_lines (rustLines base_content)
      your_change.start_line your_change.end_line,
    current_content := extract_lines (rustLines their_content)
      their_change.start_line their_change.end_line,
    your_content := extract_lines (rustLines your_content)
      your_change.start_line your_change.end_line }

/-- Number of overlapping pairs between two change lists. -/
def countOverlapPairs (your_changes their_changes : List TextChange) : Nat :=
  (your_changes.map (fun your_change =>
    (their_changes.filter (fun their_change =>
      changes_overlap your_change their_change)).length)).sum

/-- Counterexample to C9 as stated: for the overlapping pair `[1,2]` (your) /
`[0,1]` (their) the emitted conflict's `current_content` is `"T0"`, the their
lines over the *their* range — not `"T1"`, the their lines over the your-side
range `[1, 2)` the claim prescribes. -/
theorem detect_conflicts_their_range_counterexample :
    detect_conflicts [TextChange.mk 1 2 "L1"] [TextChange.mk 0 1 "L0"]
      "B0\nB1\nB2" "Y0\nY1\nY2" "T0\nT1\nT2"
      = [Conflict.mk 1 2 "B1" "T0" "Y1"] ∧
    extract_lines (rustLines "T0\nT1\nT2") 1 2 = "T1" ∧
    ("T0" : String) ≠ "T1" := by
  refine ⟨by decide, by decide, by decide⟩

/-- Length of the inner `filterMap` of `detect_conflicts`. -/
theorem filterMap_if_length {α β : Type} (l : List α) (p : α → Bool) (g : α → β) :
    (l.filterMap (fun a => if p a then some (g a) else none)).length =
      (l.filter p).length := by
  induction l with
  | nil => rfl
  | cons a rest ih =>
    by_cases h : p a = true <;> simp [List.filterMap_cons, List.filter, h, ih]

/-- C9 as amended: `detect_conflicts` emits exactly one conflict per
overlapping pair; it takes the your-side change's range and slices
`base_content` and `your_content` over that range, while `current_content` is
the their-line slice over the their-side change's range. -/
theorem detect_conflicts_per_overlapping_pair
    (your_changes their_changes : List TextChange)
    (base_content your_content their_content : String) :
    (detect_conflicts your_changes their_changes
        base_content your_content their_content).length =
      countOverlapPairs your_changes their_changes ∧
    (∀ your_change their_change, your_change ∈ your_changes →
      their_change ∈ their_changes →
      changes_overlap your_change their_change = true →
      conflict_for your_change their_change base_content your_content their_content ∈
        detect_conflicts your_changes their_changes
          base_content your_content their_content) := by
  constructor
  · simp only [detect_conflicts, countOverlapPairs, List.length_flatMap]
    congr 1
    apply List.map_congr_left
    intro yc _
    exact filterMap_if_length their_changes _ _
  · intro yc tc hyc htc hov
    simp only [detect_conflicts]
    refine List.mem_flatMap.mpr ⟨yc, hyc, List.mem_filterMap.mpr ⟨tc, htc, ?_⟩⟩
    simp [hov, conflict_for]

/-- Witness for the amended C9: a concrete overlapping pair and its emitted
conflict. -/
theorem detect_conflicts_per_overlapping_pair_witness :
    conflict_for (TextChange.mk 2 3 "Lx") (TextChange.mk 2 2 "Ly")
      "A\nB\nC" "A\nB\nX" "A\nB\nY" ∈
    detect_conflicts [TextChange.mk 2 3 "Lx"] [TextChange.mk 2 2 "Ly"]
      "A\nB\nC" "A\nB\nX" "A\nB\nY" :=
  (detect_conflicts_per_overlapping_pair [TextChange.mk 2 3 "Lx"]
    [TextChange.mk 2 2 "Ly"] "A\nB\nC" "A\nB\nX" "A\nB\nY").2
    (TextChange.mk 2 3 "Lx") (TextChange.mk 2 2 "Ly")
    (by simp) (by simp) (by decide)

/-! ### C6 — history ordering and the pre-pagination total

`sort_by(|a, b| b.timestamp.cmp(&a.timestamp))` orders by timestamp only;
equal timestamps keep the (unspecified) map iteration order, with no
lexicographic tie-break on `version_id`. -/

/-- Strict lexicographic order on code points (kernel-computable). -/
def charListLt : List Char → List Char → Bool
  | [], [] => false
  | [], _ :: _ => true
  | _ :: _, [] => false
  | c :: cs, d :: ds =>
    c.toNat < d.toNat || (c.toNat = d.toNat && charListLt cs ds)

/-- Strict lexicographic order on strings. -/
def stringLexLt (a b : String) : Bool := charListLt a.data b.data

/-- Members of a timestamp insertion. -/
theorem mem_insertByTimestampDesc (v u : FileVersion) (l : List FileVersion)
    (h : u ∈ insertByTimestampDesc v l) : u = v ∨ u ∈ l := by
  induction l with
  | nil => simpa [insertByTimestampDesc] using h
  | cons w ws ih =>
    by_cases hw : w.timestamp ≤ v.timestamp
    · simp only [insertByTimestampDesc, if_pos hw, List.mem_cons] at h
      rcases h with h | h | h
      · exact Or.inl h
      · exact Or.inr (List.mem_cons.mpr (Or.inl h))
      · exact Or.inr (List.mem_cons.mpr (Or.inr h))
    · simp only [insertByTimestampDesc, if_neg hw, List.mem_cons] at h
      rcases h with h | h
      · exact Or.inr (List.mem_cons.mpr (Or.inl h))
      · rcases ih h with h2 | h2
        · exact Or.inl h2
        · exact Or.inr (List.mem_cons.mpr (Or.inr h2))

/-- Insertion preserves descending-by-timestamp pairwise order. -/
theorem pairwise_insertByTimestampDesc (v : FileVersion) (l : List FileVersion)
    (h : l.Pairwise (fun a b => b.timestamp ≤ a.timestamp)) :
    (insertByTimestampDesc v l).Pairwise (fun a b => b.timestamp ≤ a.timestamp) := by
  induction l with
  | nil => simp [insertByTimestampDesc]
  | cons w ws ih =>
    rcases List.pairwise_cons.mp h with ⟨hw, hws⟩
    by_cases hle : w.timestamp ≤ v.timestamp
    · simp only [insertByTimestampDesc, if_pos hle]
      refine List.pairwise_cons.mpr ⟨?_, h⟩
      intro u hu
      rcases List.mem_cons.mp hu with h2 | h2
      · exact h2 ▸ hle
      · exact Nat.le_trans (hw u h2) hle
    · simp only [insertByTimestampDesc, if_neg hle]
      refine List.pairwise_cons.mpr ⟨?_, ih hws⟩
      intro u hu
      rcases mem_insertByTimestampDesc v u ws hu with h2 | h2
      · exact h2 ▸ Nat.le_of_lt (Nat.lt_of_not_le hle)
      · exact hw u h2

/-- The history sort is pairwise descending by timestamp. -/
theorem pairwise_sortByTimestampDesc (l : List FileVersion) :
    (sortByTimestampDesc l).Pairwise (fun a b => b.timestamp ≤ a.timestamp) := by
  induction l with
  | nil => simp [sortByTimestampDesc]
  | cons v vs ih => exact pairwise_insertByTimestampDesc v _ ih

/-- Insertion adds one element. -/
theorem length_insertByTimestampDesc (v : FileVersion) (l : List FileVersion) :
    (insertByTimestampDesc v l).length = l.length + 1 := by
  induction l with
  | nil => rfl
  | cons w ws ih =>
    by_cases hle : w.timestamp ≤ v.timestamp <;>
      simp [insertByTimestampDesc, hle, ih]

/-- Sorting preserves length. -/
theorem length_sortByTimestampDesc (l : List FileVersion) :
    (sortByTimestampDesc l).length = l.length := by
  induction l with
  | nil => rfl
  | cons v vs ih =>
    show (insertByTimestampDesc v (sortByTimestampDesc vs)).length = vs.length + 1
    rw [length_insertByTimestampDesc, ih]

/-- The pre-pagination count `get_file_versions` reports as `total_count`:
the whole versions map without a branch filter, the branch head alone with
one. -/
def prePaginationTotal (st : FileState) (file_id : String)
    (branch : Option String) (now : Nat) : Nat :=
  match branch with
  | none => (load_versioned_file_metadata st file_id now).versions.length
  | some _ => 1

/-- C6 as amended: the returned history is sorted by timestamp descending
(equal timestamps keep map order — no `version_id` tie-break), the total is
the pre-pagination count, and the returned pointer is the stored
`current_version`. -/
theorem get_file_versions_sorted_and_total (st : FileState) (file_id : String)
    (branch : Option String) (limit skip : Option Nat) (now : Nat)
    (vs : List FileVersion) (total : Nat) (cur : String)
    (h : get_file_versions st file_id branch limit skip now =
      Except.ok (vs, total, cur)) :
    vs.Pairwise (fun a b => b.timestamp ≤ a.timestamp) ∧
    total = prePaginationTotal st file_id branch now ∧
    cur = (load_versioned_file_metadata st file_id now).current_version := by
  cases branch with
  | none =>
    simp only [get_file_versions, Except.ok.injEq, Prod.mk.injEq] at h
    obtain ⟨hvs, htot, hcur⟩ := h
    subst hvs htot hcur
    refine ⟨?_, ?_, rfl⟩
    · have hs := pairwise_sortByTimestampDesc
        ((load_versioned_file_metadata st file_id now).versions.map (fun p => p.2))
      cases limit with
      | some limit_count =>
        exact List.Pairwise.sublist
          (List.Sublist.trans (List.take_sublist _ _) (List.drop_sublist _ _)) hs
      | none => exact List.Pairwise.sublist (List.drop_sublist _ _) hs
    · simp [prePaginationTotal, length_sortByTimestampDesc]
  | some branch_id =>
    simp only [get_file_versions] at h
    split at h
    · exact absurd h (by simp)
    · rename_i versions hinner
      split at hinner
      · rename_i br hbr
        split at hinner
        · rename_i v hv
          simp only [Except.ok.injEq] at hinner
          subst hinner
          simp only [Except.ok.injEq, Prod.mk.injEq] at h
          obtain ⟨hvs, htot, hcur⟩ := h
          subst hvs htot hcur
          refine ⟨?_, rfl, rfl⟩
          have hs := pairwise_sortByTimestampDesc [v]
          cases limit with
          | some limit_count =>
            exact List.Pairwise.sublist
              (List.Sublist.trans (List.take_sublist _ _) (List.drop_sublist _ _)) hs
          | none => exact List.Pairwise.sublist (List.drop_sublist _ _) hs
        · exact absurd hinner (by simp)
      · exact absurd hinner (by simp)

/-- Two versions with equal timestamps, map order `b` before `a`. -/
def demoTieState : FileState :=
  FileState.mk
    (some (VersionedFileMetadata.mk "f" "f.md" "b"
      [("b", FileVersion.mk "b" 5 "u" none none "h"),
       ("a", FileVersion.mk "a" 5 "u" none none "h")]
      [] [] 5 none "u"))
    []

/-- Counterexample to C6 as stated: with equal timestamps the listing keeps
map order (`b` before `a`) even though `"a"` precedes `"b"`
lexicographically, so ties are not broken by `version_id`. -/
theorem get_file_versions_no_lex_tiebreak :
    get_file_versions demoTieState "f" none none none 9 =
      Except.ok ([FileVersion.mk "b" 5 "u" none none "h",
                  FileVersion.mk "a" 5 "u" none none "h"], 2, "b") ∧
    (FileVersion.mk "b" 5 "u" none none "h").timestamp =
      (FileVersion.mk "a" 5 "u" none none "h").timestamp ∧
    stringLexLt "a" "b" = true := by
  refine ⟨rfl, rfl, by decide⟩

/-- Witness for the amended C6: the theorem applied to that concrete store. -/
theorem get_file_versions_sorted_and_total_witness :
    ([FileVersion.mk "b" 5 "u" none none "h",
      FileVersion.mk "a" 5 "u" none none "h"] : List FileVersion).Pairwise
      (fun a b => b.timestamp ≤ a.timestamp) ∧
    (2 : Nat) = prePaginationTotal demoTieState "f" none 9 ∧
    "b" = (load_versioned_file_metadata demoTieState "f" 9).current_version :=
  get_file_versions_sorted_and_total demoTieState "f" none none none 9
    [FileVersion.mk "b" 5 "u" none none "h",
     FileVersion.mk "a" 5 "u" none none "h"] 2 "b" rfl

/-! ### C7 — where the current-version pointer may dangle

Loading a never-versioned file yields the sentinel (`current_version =
"initial"`, empty versions map), and `register_active_editor` persists that
sentinel as-is — so the claimed invariant `current_version ∈ keys(versions)`
fails on reachable states. What every reachable state does satisfy is the
weaker disjunction `CurrentPointsIntoVersions`. -/

/-- Loading preserves the pointer invariant (the sentinel satisfies the
left disjunct). -/
theorem currentPoints_load (st : FileState) (file_id : String) (now : Nat)
    (h : ∀ m, st.metadata = some m → CurrentPointsIntoVersions m) :
    CurrentPointsIntoVersions (load_versioned_file_metadata st file_id now) := by
  cases hm : st.metadata with
  | none => exact Or.inl (by simp [load_versioned_file_metadata, hm])
  | some m =>
    have := h m hm
    simpa [load_versioned_file_metadata, hm] using this

/-- Whatever `save_with_conflict_detection` stores: either the metadata is
untouched, or the stored document's `current_version` is the freshly minted
id and that id is a key of its versions map. -/
theorem save_metadata_cases (st : FileState) (file_id user_id : String)
    (active_team_id : Option String) (content base_version : String)
    (message : Option String) (fresh_id : String) (now : Nat)
    (resp : SaveVersionedFileResponse) (st2 : FileState)
    (h : save_with_conflict_detection st file_id user_id active_team_id content
      base_version message fresh_id now = Except.ok (resp, st2)) :
    st2.metadata = st.metadata ∨
    ∃ m2, st2.metadata = some m2 ∧ m2.current_version = fresh_id ∧
      mapContains m2.versions fresh_id = true := by
  simp only [save_with_conflict_detection, initialize_file_versioning,
    save_file_version, save_versioned_file_metadata] at h
  split at h
  · simp only [Except.ok.injEq, Prod.mk.injEq] at h
    obtain ⟨hr, hst⟩ := h
    subst hst
    exact Or.inr ⟨_, rfl, rfl, by simp [mapContains, mapLookup]⟩
  · split at h
    · split at h
      · exact absurd h (by simp)
      · split at h
        · exact absurd h (by simp)
        · split at h
          · simp only [Except.ok.injEq, Prod.mk.injEq] at h
            obtain ⟨hr, hst⟩ := h
            subst hst
            exact Or.inr ⟨_, rfl, rfl, mapContains_mapInsert_self _ _ _⟩
          · simp only [Except.ok.injEq, Prod.mk.injEq] at h
            obtain ⟨hr, hst⟩ := h
            subst hst
            exact Or.inl rfl
    · simp only [Except.ok.injEq, Prod.mk.injEq] at h
      obtain ⟨hr, hst⟩ := h
      subst hst
      exact Or.inr ⟨_, rfl, rfl, mapContains_mapInsert_self _ _ _⟩

/-- `resolve_conflicts` always stores a document whose `current_version` is
the freshly minted id with a record under it. -/
theorem resolve_metadata_cases (st : FileState)
    (file_id user_id content rq_base rq_current message fresh_id : String)
    (now : Nat) (resp : SaveVersionedFileResponse) (st2 : FileState)
    (h : resolve_conflicts st file_id user_id content rq_base rq_current message
      fresh_id now = Except.ok (resp, st2)) :
    ∃ m2, st2.metadata = some m2 ∧ m2.current_version = fresh_id ∧
      mapContains m2.versions fresh_id = true := by
  simp only [resolve_conflicts, save_file_version, save_versioned_file_metadata,
    Except.ok.injEq, Prod.mk.injEq] at h
  obtain ⟨hr, hst⟩ := h
  subst hst
  exact ⟨_, rfl, rfl, mapContains_mapInsert_self _ _ _⟩

/-- `create_branch` never moves `current_version` and never removes a
versions-map key, so the pointer invariant survives it. -/
theorem createBranch_preserves (st : FileState)
    (file_id branch_name base_version user_id : String)
    (initial_content : Option String) (fresh_branch_id fresh_version_id : String)
    (now : Nat) (branch : FileBranch) (st2 : FileState)
    (h : create_branch st file_id branch_name base_version user_id initial_content
      fresh_branch_id fresh_version_id now = Except.ok (branch, st2))
    (hld : CurrentPointsIntoVersions (load_versioned_file_metadata st file_id now)) :
    ∀ m2, st2.metadata = some m2 → CurrentPointsIntoVersions m2 := by
  intro m2 hm2
  simp only [create_branch, save_file_version, save_versioned_file_metadata] at h
  split at h
  · exact absurd h (by simp)
  · cases initial_content with
    | some c =>
      simp only [Except.ok.injEq, Prod.mk.injEq] at h
      obtain ⟨hb, hst⟩ := h
      subst hst
      simp only [FileState.metadata, Option.some.injEq] at hm2
      subst hm2
      rcases hld with hl | hr
      · exact Or.inl hl
      · exact Or.inr (mapContains_mapInsert_of _ _ _ _ hr)
    | none =>
      simp only [Except.ok.injEq, Prod.mk.injEq] at h
      obtain ⟨hb, hst⟩ := h
      subst hst
      simp only [FileState.metadata, Option.some.injEq] at hm2
      subst hm2
      exact hld

/-- `update_branch_head` touches only the branches map. -/
theorem updateBranchHead_preserves (st : FileState)
    (file_id branch_id new_head_version : String) (now : Nat) (st2 : FileState)
    (h : update_branch_head st file_id branch_id new_head_version now =
      Except.ok st2)
    (hld : CurrentPointsIntoVersions (load_versioned_file_metadata st file_id now)) :
    ∀ m2, st2.metadata = some m2 → CurrentPointsIntoVersions m2 := by
  intro m2 hm2
  simp only [update_branch_head, save_versioned_file_metadata] at h
  split at h
  · simp only [Except.ok.injEq] at h
    subst h
    simp only [FileState.metadata, Option.some.injEq] at hm2
    subst hm2
    exact hld
  · exact absurd h (by simp)

/-- `merge_branches` either inserts the minted id and points at it (merge to
main), inserts it leaving the pointer alone (merge to a branch), or leaves
the state untouched (conflict). -/
theorem mergeBranches_preserves (st : FileState)
    (file_id user_id source_branch target_branch : String)
    (message : Option String) (fresh_id : String) (now : Nat)
    (outcome : MergeOutcome) (st2 : FileState)
    (h : merge_branches st file_id user_id source_branch target_branch message
      fresh_id now = Except.ok (outcome, st2))
    (hst : ∀ m, st.metadata = some m → CurrentPointsIntoVersions m) :
    ∀ m2, st2.metadata = some m2 → CurrentPointsIntoVersions m2 := by
  intro m2 hm2
  have hld := currentPoints_load st file_id now hst
  simp only [merge_branches, save_file_version, save_versioned_file_metadata] at h
  split at h
  · exact absurd h (by simp)
  · split at h
    · exact absurd h (by simp)
    · split at h
      · exact absurd h (by simp)
      · split at h
        · exact absurd h (by simp)
        · split at h
          · exact absurd h (by simp)
          · split at h
            · split at h
              · simp only [Except.ok.injEq, Prod.mk.injEq] at h
                obtain ⟨ho, hst2⟩ := h
                subst hst2
                simp only [FileState.metadata, Option.some.injEq] at hm2
                subst hm2
                exact Or.inr (mapContains_mapInsert_self _ _ _)
              · split at h
                · simp only [Except.ok.injEq, Prod.mk.injEq] at h
                  obtain ⟨ho, hst2⟩ := h
                  subst hst2
                  simp only [FileState.metadata, Option.some.injEq] at hm2
                  subst hm2
                  rcases hld with hl | hr
                  · exact Or.inl hl
                  · exact Or.inr (mapContains_mapInsert_of _ _ _ _ hr)
                · simp only [Except.ok.injEq, Prod.mk.injEq] at h
                  obtain ⟨ho, hst2⟩ := h
                  subst hst2
                  simp only [FileState.metadata, Option.some.injEq] at hm2
                  subst hm2
                  rcases hld with hl | hr
                  · exact Or.inl hl
                  · exact Or.inr (mapContains_mapInsert_of _ _ _ _ hr)
            · simp only [Except.ok.injEq, Prod.mk.injEq] at h
              obtain ⟨ho, hst2⟩ := h
              subst hst2
              exact hst m2 hm2

/-- C7 as amended: on every reachable state, the stored metadata's
`current_version` is either the virgin sentinel `"initial"` or a key of its
versions map. -/
theorem reachable_current_version_sound (st : FileState) (h : Reachable st) :
    ∀ m, st.metadata = some m → CurrentPointsIntoVersions m := by
  induction h with
  | empty =>
    intro m hm
    simp [emptyFileState] at hm
  | registerEditor file_id user_id branch now _ ih =>
    intro m hm
    rename_i st0 _
    have hld := currentPoints_load st0 file_id now ih
    simp only [register_active_editor, save_versioned_file_metadata,
      FileState.metadata, Option.some.injEq] at hm
    subst hm
    exact hld
  | unregisterEditor file_id user_id now _ ih =>
    intro m hm
    rename_i st0 _
    have hld := currentPoints_load st0 file_id now ih
    simp only [unregister_active_editor, save_versioned_file_metadata,
      FileState.metadata, Option.some.injEq] at hm
    subst hm
    exact hld
  | initFileVersioning file_id file_name content owner_id team_id fresh_id now _ _ =>
    intro m hm
    simp only [initialize_file_versioning, save_file_version,
      save_versioned_file_metadata, FileState.metadata, Option.some.injEq] at hm
    subst hm
    exact Or.inr (by simp [mapContains, mapLookup])
  | save file_id user_id active_team_id content base_version message fresh_id now _ hsave ih =>
    intro m hm
    rcases save_metadata_cases _ _ _ _ _ _ _ _ _ _ _ hsave with hsame | ⟨m2, hm2, hcur, hkey⟩
    · exact ih m (hsame ▸ hm)
    · rw [hm2] at hm
      cases hm
      exact Or.inr (hcur ▸ hkey)
  | resolve file_id user_id content rq_base rq_current message fresh_id now _ hres ih =>
    intro m hm
    rcases resolve_metadata_cases _ _ _ _ _ _ _ _ _ _ _ hres with ⟨m2, hm2, hcur, hkey⟩
    rw [hm2] at hm
    cases hm
    exact Or.inr (hcur ▸ hkey)
  | createBranch file_id branch_name base_version user_id initial_content fb fv now _ hcb ih =>
    rename_i st0 _ _ _
    exact createBranch_preserves st0 _ _ _ _ _ _ _ _ _ _ hcb
      (currentPoints_load st0 file_id now ih)
  | updateBranchHead file_id branch_id new_head_version now _ hub ih =>
    rename_i st0 _ _
    exact updateBranchHead_preserves st0 _ _ _ _ _ hub
      (currentPoints_load st0 file_id now ih)
  | mergeBranches file_id user_id source_branch target_branch message fresh_id now _ hmb ih =>
    rename_i st0 _ _ _
    exact mergeBranches_preserves st0 _ _ _ _ _ _ _ _ _ hmb ih

/-- Counterexample to C7 as stated: registering an editor on a virgin file
persists the sentinel metadata, whose `current_version = "initial"` is not a
key of its (empty) versions map — a reachable state violating the claimed
membership invariant. -/
theorem register_on_virgin_dangling_pointer :
    Reachable (register_active_editor emptyFileState "f" "u" none 0).2 ∧
    ((register_active_editor emptyFileState "f" "u" none 0).2).metadata =
      some (VersionedFileMetadata.mk "f" "unknown.md" "initial" [] []
        [ActiveEditor.mk "u" none 0 none] 0 none "unknown") ∧
    mapContains
      (VersionedFileMetadata.mk "f" "unknown.md" "initial"
        ([] : List (String × FileVersion)) []
        [ActiveEditor.mk "u" none 0 none] 0 none "unknown").versions
      (VersionedFileMetadata.mk "f" "unknown.md" "initial"
        ([] : List (String × FileVersion)) []
        [ActiveEditor.mk "u" none 0 none] 0 none "unknown").current_version
      = false :=
  ⟨Reachable.registerEditor "f" "u" none 0 Reachable.empty, rfl, rfl⟩

/-- Witness for the amended C7: a concrete initialized (hence reachable)
state whose pointer satisfies the invariant. -/
theorem reachable_current_version_sound_witness :
    CurrentPointsIntoVersions
      (VersionedFileMetadata.mk "f" "f.md" "v0"
        [("v0", FileVersion.mk "v0" 3 "u" none (some "Initial version") "sha256:c")]
        [] [] 3 none "u") :=
  reachable_current_version_sound
    (initialize_file_versioning emptyFileState "f" "f.md" "c" "u" none "v0" 3).2
    (Reachable.initFileVersioning "f" "f.md" "c" "u" none "v0" 3 Reachable.empty)
    (VersionedFileMetadata.mk "f" "f.md" "v0"
      [("v0", FileVersion.mk "v0" 3 "u" none (some "Initial version") "sha256:c")]
      [] [] 3 none "u")
    rfl

end Forseti
